import Mathlib

/-!
Verification of the Taskify todo web application (`src/src/TodoApp.tsx` and the
extended variant in `src/unnamed/part_000`, which adds the optional
`dateCreated` field and the `sortedTodos` display ordering).

The state/persistence logic of the component is embedded shallowly:

* the `Todo` interface becomes a structure; JS numbers holding `Date.now()`
  millisecond values are modelled as `Nat`;
* the React state hooks become an `AppState` record, and each event handler
  becomes a pure function `AppState → AppState` (the `setXxx` calls are the
  field updates);
* `[...todos].sort(cmp)` is modelled as a stable sort descending by the
  comparator key (ECMAScript `Array.prototype.sort` is stable), realised as a
  structurally recursive insertion sort;
* `localStorage`/`JSON` persistence is modelled at the level of parsed JSON
  values: a `Json` value tree, an encoder mirroring `JSON.stringify` on the
  todo array, and a decoder mirroring the `todos.map(...)` restoration in
  `loadTodosFromStorage`, with every place where the JS code could throw
  inside the `try` block modelled as a decoding failure that the outer
  `catch` turns into the empty list.
-/

/-- The `Todo` interface of `part_000`: `id: number`, `title: string`,
`note: string`, `completed: boolean`, `dateCreated?: Date`.  Dates are
represented by their millisecond value (`Date.prototype.getTime`). -/
structure Todo where
  id : Nat
  title : String
  note : String
  completed : Bool
  dateCreated : Option Nat
deriving DecidableEq, Repr

/-- The comparator key of `sortedTodos`:
`a.dateCreated ? new Date(a.dateCreated).getTime() : 0`. -/
def sortKey (t : Todo) : Nat :=
  match t.dateCreated with
  | some d => d
  | none => 0

/-- Stable insertion (descending by `sortKey`): the inserted element goes in
front of the first element whose key is `≤` its own, so among equal keys the
element inserted later in the recursion (= earlier in the input list) comes
first.  This realises the stability guaranteed by `Array.prototype.sort`. -/
def insertTodo (t : Todo) : List Todo → List Todo
  | [] => [t]
  | u :: us =>
    if sortKey u ≤ sortKey t then t :: u :: us else u :: insertTodo t us

/-- `const sortedTodos = [...todos].sort((a, b) => dateB - dateA)`: a stable
sort of a copy of the collection, newest first, missing dates counting as 0. -/
def sortedTodos : List Todo → List Todo
  | [] => []
  | t :: rest => insertTodo t (sortedTodos rest)

/-- `toggleTodo`: `todos.map(todo => todo.id === id ? {...todo, completed: !todo.completed} : todo)`. -/
def toggleTodo (id : Nat) (todos : List Todo) : List Todo :=
  todos.map (fun todo =>
    if todo.id = id then { todo with completed := !todo.completed } else todo)

/-- `deleteTodo`: `todos.filter(todo => todo.id !== id)`. -/
def deleteTodo (id : Nat) (todos : List Todo) : List Todo :=
  todos.filter (fun todo => todo.id != id)

/-- The component state: the `useState` hooks of `TodoApp` that take part in
the task-store logic. -/
structure AppState where
  todos : List Todo
  inputTitle : String
  inputNote : String
  showInputs : Bool
  isDarkTheme : Bool
deriving DecidableEq, Repr

/-- Model of the JS builtin `String.prototype.trim`: strip whitespace from
both ends of the string. -/
def jsTrim (s : String) : String :=
  String.mk (((s.data.dropWhile Char.isWhitespace).reverse.dropWhile
    Char.isWhitespace).reverse)

/-- `addTodo`: guarded on both trimmed inputs being non-empty; appends a
record with `id = Date.now()`, the untrimmed input buffers, `completed:
false` and `dateCreated = new Date()`, then clears the buffers and collapses
the input panel.  Both clock reads are the same instant `now`. -/
def addTodo (now : Nat) (s : AppState) : AppState :=
  if jsTrim s.inputTitle ≠ "" ∧ jsTrim s.inputNote ≠ "" then
    { s with
      todos := s.todos ++
        [{ id := now, title := s.inputTitle, note := s.inputNote,
           completed := false, dateCreated := some now }],
      inputTitle := "", inputNote := "", showInputs := false }
  else s

/-- Computing the display ordering: `[...todos]` copies the array before
`sort` mutates it, so the render step yields the sorted view together with
the untouched component state. -/
def renderSortedTodos (s : AppState) : List Todo × AppState :=
  (sortedTodos s.todos, s)

/-- One user action of an in-memory session: typing a title and note and
pressing "Add Task" at clock value `now`, clicking a record's toggle control,
or clicking its delete control. -/
inductive Op where
  | add (now : Nat) (title note : String)
  | toggle (id : Nat)
  | delete (id : Nat)
deriving DecidableEq, Repr

/-- Effect of one user action on the component state. -/
def applyOp (s : AppState) (op : Op) : AppState :=
  match op with
  | Op.add now title note =>
      addTodo now { s with inputTitle := title, inputNote := note }
  | Op.toggle id => { s with todos := toggleTodo id s.todos }
  | Op.delete id => { s with todos := deleteTodo id s.todos }

/-- The state a session starts from when nothing was persisted: empty
collection, empty buffers, collapsed panel, light theme. -/
def initState : AppState :=
  { todos := [], inputTitle := "", inputNote := "", showInputs := false,
    isDarkTheme := false }

/-- Run a session: fold the user actions over the initial state. -/
def run (ops : List Op) : AppState :=
  ops.foldl applyOp initState

/-- The clock values at which the `add` actions of a session occur, in
order. -/
def addTimes : List Op → List Nat
  | [] => []
  | Op.add now _ _ :: rest => now :: addTimes rest
  | Op.toggle _ :: rest => addTimes rest
  | Op.delete _ :: rest => addTimes rest

/-! ## Persistence

`saveTodosToStorage` writes `JSON.stringify(todos)` under a fixed key and
`loadTodosFromStorage` reads it back with `JSON.parse` followed by a `map`
that revives `dateCreated` via `new Date(...)`.  We model the persisted text
by its parsed JSON value: `JSON.parse` succeeding with value `j` is
`StorageContent.value j`, `JSON.parse` throwing on malformed text is
`StorageContent.corrupt`, and `localStorage.getItem` returning `null` is
`StorageContent.absent`. -/

/-- Parsed JSON values. -/
inductive Json where
  | null
  | bool (b : Bool)
  | num (n : Int)
  | str (s : String)
  | arr (elems : List Json)
  | obj (fields : List (String × Json))

/-- Model of `Date.prototype.toJSON` composed with the millisecond clock: JS
serializes a `Date` as the ISO-8601 string from which `new Date` restores the
exact same millisecond value.  We model that timestamp string by the decimal
numeral of the millisecond count, which shares the properties the program
relies on: it is a non-empty (hence truthy) string and parsing it back is
exact. -/
def isoOfMillis (n : Nat) : String :=
  if n = 0 then "0"
  else String.mk (((Nat.digits 10 n).map Nat.digitChar).reverse)

/-- Model of `new Date(s).getTime()` on a timestamp string: defined exactly
on decimal numerals (the image of `isoOfMillis`); any other string is an
invalid date, modelled as `none`. -/
def millisOfIso (s : String) : Option Nat :=
  if s.data ≠ [] ∧ ∀ c ∈ s.data, c.isDigit then
    some (Nat.ofDigits 10 ((s.data.map (fun c => c.toNat - 48)).reverse))
  else none

/-- `JSON.stringify` on one todo object: the fields in creation order;
`dateCreated` becomes its ISO string via `Date.prototype.toJSON`, and an
`undefined` `dateCreated` is omitted from the output entirely. -/
def todoToJson (t : Todo) : Json :=
  Json.obj
    ([("id", Json.num (Int.ofNat t.id)), ("title", Json.str t.title),
      ("note", Json.str t.note), ("completed", Json.bool t.completed)] ++
      (match t.dateCreated with
       | some d => [("dateCreated", Json.str (isoOfMillis d))]
       | none => []))

/-- `saveTodosToStorage`: `JSON.stringify(todosToSave)` — an array of the
serialized records (the `localStorage.setItem` write and its `catch` are
outside the data path). -/
def saveTodosToStorage (todosToSave : List Todo) : Json :=
  Json.arr (todosToSave.map todoToJson)

/-- First-match field lookup in a JSON object (stringify output has unique
keys). -/
def getField : List (String × Json) → String → Option Json
  | [], _ => none
  | (k, v) :: rest, key => if k = key then some v else getField rest key

/-- The body of the revival map in `loadTodosFromStorage`:
`{...todo, dateCreated: todo.dateCreated ? new Date(todo.dateCreated) : undefined}`.
A falsy `dateCreated` (absent, `null`, or the empty string) becomes
`undefined`; a present timestamp string goes through `new Date`.  An element
that does not have the shape of a serialized todo — where the untyped JS
code would either throw inside the `try` block or produce a value outside
the `Todo` interface — is modelled as a decoding failure. -/
def decodeTodo (j : Json) : Option Todo :=
  match j with
  | Json.obj fields =>
    match getField fields "id", getField fields "title", getField fields "note",
          getField fields "completed", getField fields "dateCreated" with
    | some (Json.num i), some (Json.str title), some (Json.str note),
      some (Json.bool c), dc =>
      if 0 ≤ i then
        match dc with
        | none => some (Todo.mk i.toNat title note c none)
        | some Json.null => some (Todo.mk i.toNat title note c none)
        | some (Json.str s) =>
          if s = "" then some (Todo.mk i.toNat title note c none)
          else
            match millisOfIso s with
            | some d => some (Todo.mk i.toNat title note c (some d))
            | none => none
        | some _ => none
      else none
    | _, _, _, _, _ => none
  | _ => none

/-- `todos.map(todo => ...)` over the parsed value: throws (fails) when the
parsed value is not an array or some element fails to decode. -/
def decodeTodos (j : Json) : Option (List Todo) :=
  match j with
  | Json.arr elems => decodeTodoList elems
  | _ => none
where
  decodeTodoList : List Json → Option (List Todo)
  | [] => some []
  | e :: rest =>
    match decodeTodo e, decodeTodoList rest with
    | some t, some ts => some (t :: ts)
    | _, _ => none

/-- What `localStorage.getItem(STORAGE_KEY)` followed by `JSON.parse` can
yield: no stored value, malformed text on which `JSON.parse` throws, or a
parsed JSON value. -/
inductive StorageContent where
  | absent
  | corrupt
  | value (j : Json)

/-- `loadTodosFromStorage`: an absent value returns `[]`; any exception from
`JSON.parse` or from the revival map is caught and logged and `[]` is
returned; otherwise the revived collection is returned. -/
def loadTodosFromStorage : StorageContent → List Todo
  | StorageContent.absent => []
  | StorageContent.corrupt => []
  | StorageContent.value j =>
    match decodeTodos j with
    | some todos => todos
    | none => []

/-! ## Helper lemmas about the stable sort -/

theorem insertTodo_perm (t : Todo) (l : List Todo) :
    (insertTodo t l).Perm (t :: l) := by
  induction l with
  | nil => simp [insertTodo]
  | cons u us ih =>
    by_cases h : sortKey u ≤ sortKey t
    · simp [insertTodo, h]
    · simp only [insertTodo, if_neg h]
      exact (ih.cons u).trans (List.Perm.swap t u us)

theorem mem_insertTodo {v t : Todo} {l : List Todo} :
    v ∈ insertTodo t l ↔ v = t ∨ v ∈ l := by
  rw [(insertTodo_perm t l).mem_iff, List.mem_cons]

theorem sortedTodos_perm (l : List Todo) : (sortedTodos l).Perm l := by
  induction l with
  | nil => simp [sortedTodos]
  | cons t rest ih =>
    exact (insertTodo_perm t (sortedTodos rest)).trans (ih.cons t)

theorem insertTodo_pairwise {t : Todo} {l : List Todo}
    (h : l.Pairwise (fun u v => sortKey v ≤ sortKey u)) :
    (insertTodo t l).Pairwise (fun u v => sortKey v ≤ sortKey u) := by
  induction l with
  | nil => simp [insertTodo]
  | cons u us ih =>
    rcases List.pairwise_cons.1 h with ⟨hu, hus⟩
    by_cases hle : sortKey u ≤ sortKey t
    · simp only [insertTodo, if_pos hle]
      refine List.pairwise_cons.2 ⟨?_, h⟩
      intro v hv
      rcases List.mem_cons.1 hv with rfl | hv
      · exact hle
      · exact le_trans (hu v hv) hle
    · simp only [insertTodo, if_neg hle]
      refine List.pairwise_cons.2 ⟨?_, ih hus⟩
      intro v hv
      rcases mem_insertTodo.1 hv with rfl | hv
      · exact le_of_lt (lt_of_not_le hle)
      · exact hu v hv

theorem sortedTodos_pairwise (l : List Todo) :
    (sortedTodos l).Pairwise (fun u v => sortKey v ≤ sortKey u) := by
  induction l with
  | nil => simp [sortedTodos]
  | cons t rest ih => exact insertTodo_pairwise ih

/-! ## Claims about toggle, delete, add and the rendered view -/

/-- Claim C1: `Toggle(id)` keeps the length and order of the collection; at
every position whose record matches `id` the completed flag is negated and
the `id`, `title`, `note` and `dateCreated` fields are kept (the structure
update touches only `completed`), every other position is unchanged; and
when no record has the identifier the collection is returned unchanged. -/
theorem toggleTodo_spec (l : List Todo) (id : Nat) :
    ((∀ t ∈ l, t.id ≠ id) → toggleTodo id l = l) ∧
    (toggleTodo id l).length = l.length ∧
    (∀ i : Nat, (toggleTodo id l)[i]? =
      (l[i]?).map (fun t =>
        if t.id = id then { t with completed := !t.completed } else t)) := by
  refine ⟨?_, by simp [toggleTodo], ?_⟩
  · intro h
    have hid : ∀ t ∈ l,
        (if t.id = id then { t with completed := !t.completed } else t) = t := by
      intro t ht
      rw [if_neg (h t ht)]
    calc toggleTodo id l = l.map (fun t => t) := List.map_congr_left hid
    _ = l := by simp
  · intro i
    simp [toggleTodo]

/-- Witness for C1 at a concrete collection and an absent identifier. -/
theorem toggleTodo_spec_witness :
    (∀ t ∈ [Todo.mk 1 "a" "b" false none], t.id ≠ 2) ∧
    toggleTodo 2 [Todo.mk 1 "a" "b" false none] = [Todo.mk 1 "a" "b" false none] :=
  ⟨by decide, (toggleTodo_spec [Todo.mk 1 "a" "b" false none] 2).1 (by decide)⟩

/-- Claim C2: when the collection decomposes around a unique record carrying
the identifier, `Delete(id)` removes exactly that record and keeps the
relative order of the rest; when no record has the identifier the collection
is returned unchanged. -/
theorem deleteTodo_spec (l : List Todo) (id : Nat) :
    ((∀ t ∈ l, t.id ≠ id) → deleteTodo id l = l) ∧
    (∀ (l₁ : List Todo) (t : Todo) (l₂ : List Todo),
      l = l₁ ++ t :: l₂ → t.id = id →
      (∀ u ∈ l₁, u.id ≠ id) → (∀ u ∈ l₂, u.id ≠ id) →
      deleteTodo id l = l₁ ++ l₂) := by
  constructor
  · intro h
    apply List.filter_eq_self.2
    intro t ht
    simpa using h t ht
  · rintro l₁ t l₂ rfl ht h₁ h₂
    have hl₁ : l₁.filter (fun u => u.id != id) = l₁ := by
      apply List.filter_eq_self.2
      intro u hu
      simpa using h₁ u hu
    have hl₂ : l₂.filter (fun u => u.id != id) = l₂ := by
      apply List.filter_eq_self.2
      intro u hu
      simpa using h₂ u hu
    simp [deleteTodo, List.filter_append, List.filter_cons, ht, hl₁, hl₂]

/-- Witness for C2: deleting the middle record of a three-record collection. -/
theorem deleteTodo_spec_witness :
    deleteTodo 2 [Todo.mk 1 "a" "b" false none, Todo.mk 2 "c" "d" false none,
      Todo.mk 3 "e" "f" false none] =
      [Todo.mk 1 "a" "b" false none, Todo.mk 3 "e" "f" false none] :=
  (deleteTodo_spec [Todo.mk 1 "a" "b" false none, Todo.mk 2 "c" "d" false none,
      Todo.mk 3 "e" "f" false none] 2).2
    [Todo.mk 1 "a" "b" false none] (Todo.mk 2 "c" "d" false none)
    [Todo.mk 3 "e" "f" false none] rfl rfl (by decide) (by decide)

/-- Claim C3: when both trimmed input buffers are non-blank, `Add` appends
exactly one new record, with `id = Date.now()`, the (untrimmed) buffers as
title and note, `completed = false` and `dateCreated` the same clock
instant; in particular the collection grows by exactly one. -/
theorem addTodo_nonblank (s : AppState) (now : Nat)
    (htitle : jsTrim s.inputTitle ≠ "") (hnote : jsTrim s.inputNote ≠ "") :
    (addTodo now s).todos =
      s.todos ++ [{ id := now, title := s.inputTitle, note := s.inputNote,
                    completed := false, dateCreated := some now }] ∧
    (addTodo now s).todos.length = s.todos.length + 1 := by
  unfold addTodo
  rw [if_pos ⟨htitle, hnote⟩]
  simp

/-- Witness for C3: the scenario of spec §8.7 at clock value 42. -/
theorem addTodo_nonblank_witness :
    (jsTrim "Buy milk" ≠ "") ∧ (jsTrim "2 liters" ≠ "") ∧
    (addTodo 42 (AppState.mk [] "Buy milk" "2 liters" true false)).todos =
      [Todo.mk 42 "Buy milk" "2 liters" false (some 42)] :=
  ⟨by decide, by decide,
    (addTodo_nonblank (AppState.mk [] "Buy milk" "2 liters" true false) 42
      (by decide) (by decide)).1⟩

/-- Claim C4: when either input buffer is blank after trimming, `Add` is a
no-op — the whole component state, in particular the task collection, is
unchanged. -/
theorem addTodo_blank (s : AppState) (now : Nat)
    (h : jsTrim s.inputTitle = "" ∨ jsTrim s.inputNote = "") :
    addTodo now s = s := by
  unfold addTodo
  rw [if_neg]
  rintro ⟨h₁, h₂⟩
  rcases h with h | h
  · exact h₁ h
  · exact h₂ h

/-- Witness for C4: a whitespace-only title is rejected. -/
theorem addTodo_blank_witness :
    (jsTrim "   " = "") ∧
    addTodo 42 (AppState.mk [] "   " "2 liters" true false) =
      AppState.mk [] "   " "2 liters" true false :=
  ⟨by decide,
    addTodo_blank (AppState.mk [] "   " "2 liters" true false) 42 (Or.inl (by decide))⟩

/-- Claim C6: computing the sorted view returns the component state
untouched — the stored collection afterwards is element-for-element the
stored collection before, and the view itself is a rearrangement (a
permutation) of it. -/
theorem renderSortedTodos_spec (s : AppState) :
    (renderSortedTodos s).2 = s ∧ (renderSortedTodos s).2.todos = s.todos ∧
    (renderSortedTodos s).1.Perm s.todos :=
  ⟨rfl, rfl, sortedTodos_perm s.todos⟩

/-- Claim C10: on a collection holding two records (at distinct positions)
with the same identifier, `Toggle(id)` flips the completed flag at every
position whose record matches, and `Delete(id)` removes every matching
record while retaining every non-matching one. -/
theorem duplicateId_spec (l : List Todo) (id : Nat) (i j : Nat)
    (hi : i < l.length) (hj : j < l.length) (hij : i ≠ j)
    (hidi : (l.get ⟨i, hi⟩).id = id) (hidj : (l.get ⟨j, hj⟩).id = id) :
    (∀ (k : Nat) (hk : k < l.length), (l.get ⟨k, hk⟩).id = id →
      (toggleTodo id l)[k]? =
        some { l.get ⟨k, hk⟩ with completed := !(l.get ⟨k, hk⟩).completed }) ∧
    (∀ t ∈ deleteTodo id l, t.id ≠ id) ∧
    (∀ t ∈ l, t.id ≠ id → t ∈ deleteTodo id l) := by
  refine ⟨?_, ?_, ?_⟩
  · intro k hk hkid
    have hkid2 : l[k].id = id := hkid
    simp [toggleTodo, List.getElem?_eq_getElem hk, hkid2]
  · intro t ht
    have := List.of_mem_filter ht
    simpa using this
  · intro t ht hne
    exact List.mem_filter.2 ⟨ht, by simpa using hne⟩

/-- Witness for C10: a two-record collection whose records share id 5; both
are flipped by `Toggle(5)` (shown at position 1). -/
theorem duplicateId_spec_witness :
    (toggleTodo 5 [Todo.mk 5 "a" "b" false none, Todo.mk 5 "c" "d" false none])[1]? =
      some (Todo.mk 5 "c" "d" true none) :=
  (duplicateId_spec [Todo.mk 5 "a" "b" false none, Todo.mk 5 "c" "d" false none] 5 0 1
    (by decide) (by decide) (by decide) (by decide) (by decide)).1 1 (by decide) (by decide)

/-! ## Session invariant machinery for claim C9 -/

theorem toggleTodo_map_id (id : Nat) (l : List Todo) :
    (toggleTodo id l).map Todo.id = l.map Todo.id := by
  unfold toggleTodo
  rw [List.map_map]
  apply List.map_congr_left
  intro t ht
  by_cases h : t.id = id <;> simp [h, Function.comp]

theorem deleteTodo_ids_sublist (id : Nat) (l : List Todo) :
    ((deleteTodo id l).map Todo.id).Sublist (l.map Todo.id) :=
  (List.filter_sublist l).map Todo.id

theorem foldl_applyOp_nodup (ops : List Op) (s : AppState)
    (hnd : (s.todos.map Todo.id).Nodup)
    (hlt : ∀ i ∈ s.todos.map Todo.id, ∀ t ∈ addTimes ops, i < t)
    (hinc : (addTimes ops).Pairwise (· < ·)) :
    (((ops.foldl applyOp s).todos).map Todo.id).Nodup := by
  induction ops generalizing s with
  | nil => exact hnd
  | cons op rest ih =>
    rw [List.foldl_cons]
    cases op with
    | toggle id =>
      refine ih _ ?_ ?_ hinc
      · have : (applyOp s (Op.toggle id)).todos = toggleTodo id s.todos := rfl
        rw [this, toggleTodo_map_id]
        exact hnd
      · intro i hi t ht
        have : (applyOp s (Op.toggle id)).todos = toggleTodo id s.todos := rfl
        rw [this, toggleTodo_map_id] at hi
        exact hlt i hi t ht
    | delete id =>
      have hsub := deleteTodo_ids_sublist id s.todos
      refine ih _ (hnd.sublist hsub) ?_ hinc
      intro i hi t ht
      exact hlt i (hsub.subset hi) t ht
    | add now title note =>
      have htimes : addTimes (Op.add now title note :: rest) = now :: addTimes rest :=
        rfl
      rw [htimes] at hlt hinc
      rcases List.pairwise_cons.1 hinc with ⟨hnow, hrest⟩
      by_cases hb : jsTrim title ≠ "" ∧ jsTrim note ≠ ""
      · have htodos : (applyOp s (Op.add now title note)).todos =
            s.todos ++ [Todo.mk now title note false (some now)] := by
          simp [applyOp, addTodo, hb]
        refine ih _ ?_ ?_ hrest
        · rw [htodos]
          have hmem : now ∉ s.todos.map Todo.id := by
            intro hmem
            exact lt_irrefl now (hlt now hmem now (List.mem_cons_self now _))
          simp [List.nodup_append, hnd, hmem]
        · intro i hi t ht
          rw [htodos] at hi
          simp only [List.map_append, List.mem_append, List.map_cons, List.map_nil,
            List.mem_singleton] at hi
          rcases hi with hi | rfl
          · exact hlt i hi t (List.mem_cons_of_mem now ht)
          · exact hnow t ht
      · have htodos : (applyOp s (Op.add now title note)).todos = s.todos := by
          simp only [applyOp, addTodo]
          rw [if_neg]
          · simpa using hb
        refine ih _ ?_ ?_ hrest
        · rw [htodos]; exact hnd
        · intro i hi t ht
          rw [htodos] at hi
          exact hlt i hi t (List.mem_cons_of_mem now ht)

/-- Claim C9 (amended): starting from the empty collection, any sequence of
Add/Toggle/Delete actions in which the clock readings of the Add actions are
strictly increasing leaves a collection whose identifiers are pairwise
distinct. -/
theorem run_nodup_ids (ops : List Op)
    (hinc : (addTimes ops).Pairwise (· < ·)) :
    (((run ops).todos).map Todo.id).Nodup :=
  foldl_applyOp_nodup ops initState (by simp [initState]) (by simp [initState]) hinc

/-- Witness for the amended C9: two adds at strictly increasing clock values
produce distinct identifiers. -/
theorem run_nodup_ids_witness :
    (addTimes [Op.add 1 "a" "b", Op.add 2 "c" "d"]).Pairwise (· < ·) ∧
    (((run [Op.add 1 "a" "b", Op.add 2 "c" "d"]).todos).map Todo.id).Nodup :=
  ⟨by decide, run_nodup_ids [Op.add 1 "a" "b", Op.add 2 "c" "d"] (by decide)⟩

/-- Claim C9 counterexample: two Add actions at the same clock reading (the
timestamp-based id collision the spec's design notes flag) yield a reachable
state whose two records share identifier 5. -/
theorem run_duplicate_ids_counterexample :
    ¬ (((run [Op.add 5 "a" "b", Op.add 5 "c" "d"]).todos).map Todo.id).Nodup := by
  decide

/-! ## Claim C5: display ordering -/

/-- Claim C5 counterexample: the record at the head of the rendered view lacks
a creation timestamp, yet the record after it has one (timestamp 0) — because
a missing timestamp and timestamp 0 compare equal under the comparator and the
stable sort keeps their insertion order.  So a record lacking a timestamp does
not sort after every record that has one, refuting the claim as stated. -/
theorem sortedTodos_counterexample :
    (Todo.mk 1 "a" "b" false none).dateCreated = none ∧
    (Todo.mk 2 "c" "d" false (some 0)).dateCreated = some 0 ∧
    sortedTodos [Todo.mk 1 "a" "b" false none, Todo.mk 2 "c" "d" false (some 0)] =
      [Todo.mk 1 "a" "b" false none, Todo.mk 2 "c" "d" false (some 0)] :=
  ⟨rfl, rfl, rfl⟩

/-- Claim C5 (amended): the rendered view is a permutation of the collection
whose comparator keys are nonincreasing (newest first); a record lacking a
timestamp (key 0) is never rendered strictly before a record with a nonzero
timestamp, only before records that also have key 0; and for a collection of
three records with timestamps `T1 < T2 < T3`, in any insertion order, the
rendered order is exactly the `T3`, `T2`, `T1` record. -/
theorem sortedTodos_spec (l : List Todo) :
    (sortedTodos l).Perm l ∧
    (sortedTodos l).Pairwise (fun u v => sortKey v ≤ sortKey u) ∧
    (sortedTodos l).Pairwise (fun u v =>
      u.dateCreated = none → v.dateCreated = none ∨ v.dateCreated = some 0) ∧
    (∀ (a b c : Todo) (T1 T2 T3 : Nat),
      a.dateCreated = some T1 → b.dateCreated = some T2 → c.dateCreated = some T3 →
      T1 < T2 → T2 < T3 → l.Perm [a, b, c] → sortedTodos l = [c, b, a]) := by
  refine ⟨sortedTodos_perm l, sortedTodos_pairwise l, ?_, ?_⟩
  · refine (sortedTodos_pairwise l).imp ?_
    intro u v hle hu
    have hku : sortKey u = 0 := by simp [sortKey, hu]
    have hkv : sortKey v = 0 := Nat.le_zero.1 (hku ▸ hle)
    cases hv : v.dateCreated with
    | none => exact Or.inl rfl
    | some d =>
      right
      have : d = 0 := by simpa [sortKey, hv] using hkv
      rw [this]
  · intro a b c T1 T2 T3 ha hb hc h12 h23 hperm
    have hka : sortKey a = T1 := by simp [sortKey, ha]
    have hkb : sortKey b = T2 := by simp [sortKey, hb]
    have hkc : sortKey c = T3 := by simp [sortKey, hc]
    have hout : (sortedTodos l).Perm [a, b, c] := (sortedTodos_perm l).trans hperm
    have hsymm : Symmetric (fun u v : Todo => sortKey u ≠ sortKey v) :=
      fun u v h => h.symm
    have hne : ([a, b, c] : List Todo).Pairwise
        (fun u v => sortKey u ≠ sortKey v) := by
      refine List.pairwise_cons.2 ⟨?_, List.pairwise_cons.2 ⟨?_, ?_⟩⟩
      · intro v hv
        rcases List.mem_cons.1 hv with rfl | hv
        · rw [hka, hkb]; exact Nat.ne_of_lt h12
        · rcases List.mem_singleton.1 hv with rfl
          rw [hka, hkc]; exact Nat.ne_of_lt (lt_trans h12 h23)
      · intro v hv
        rcases List.mem_singleton.1 hv with rfl
        rw [hkb, hkc]; exact Nat.ne_of_lt h23
      · simp
    have hne2 : (sortedTodos l).Pairwise (fun u v => sortKey u ≠ sortKey v) :=
      (hout.pairwise_iff (fun h => hsymm h)).2 hne
    haveI : IsAntisymm Todo (fun u v : Todo => sortKey v < sortKey u) :=
      ⟨fun u v h1 h2 => absurd h1 (not_lt.2 (le_of_lt h2))⟩
    have hsorted : (sortedTodos l).Sorted (fun u v : Todo => sortKey v < sortKey u) := by
      refine ((sortedTodos_pairwise l).and hne2).imp ?_
      intro u v huv
      exact lt_of_le_of_ne huv.1 (fun h => huv.2 h.symm)
    have hsorted2 : ([c, b, a] : List Todo).Sorted
        (fun u v : Todo => sortKey v < sortKey u) := by
      refine List.pairwise_cons.2 ⟨?_, List.pairwise_cons.2 ⟨?_, ?_⟩⟩
      · intro v hv
        rcases List.mem_cons.1 hv with rfl | hv
        · rw [hkb, hkc]; exact h23
        · rcases List.mem_singleton.1 hv with rfl
          rw [hka, hkc]; exact lt_trans h12 h23
      · intro v hv
        rcases List.mem_singleton.1 hv with rfl
        rw [hka, hkb]; exact h12
      · simp
    have hrev : ([a, b, c] : List Todo).Perm [c, b, a] := by
      simpa using List.reverse_perm ([c, b, a] : List Todo)
    exact List.eq_of_perm_of_sorted (hout.trans hrev) hsorted hsorted2

/-- Witness for the amended C5: three records inserted oldest-first are
rendered newest-first. -/
theorem sortedTodos_spec_witness :
    sortedTodos [Todo.mk 1 "x" "y" false (some 10), Todo.mk 2 "x" "y" false (some 20),
        Todo.mk 3 "x" "y" false (some 30)] =
      [Todo.mk 3 "x" "y" false (some 30), Todo.mk 2 "x" "y" false (some 20),
        Todo.mk 1 "x" "y" false (some 10)] :=
  (sortedTodos_spec [Todo.mk 1 "x" "y" false (some 10),
      Todo.mk 2 "x" "y" false (some 20), Todo.mk 3 "x" "y" false (some 30)]).2.2.2
    (Todo.mk 1 "x" "y" false (some 10)) (Todo.mk 2 "x" "y" false (some 20))
    (Todo.mk 3 "x" "y" false (some 30)) 10 20 30 rfl rfl rfl (by decide) (by decide)
    (List.Perm.refl _)

/-! ## Claims C7 and C8: persistence round-trip and load fallback -/

theorem digitChar_isDigit {d : Nat} (h : d < 10) :
    (Nat.digitChar d).isDigit = true := by
  interval_cases d <;> decide

theorem digitChar_toNat {d : Nat} (h : d < 10) :
    (Nat.digitChar d).toNat - 48 = d := by
  interval_cases d <;> decide

theorem isoOfMillis_ne_empty (n : Nat) : isoOfMillis n ≠ "" := by
  by_cases hn : n = 0
  · subst hn
    decide
  · unfold isoOfMillis
    rw [if_neg hn]
    intro h
    have hd := congrArg String.data h
    simp only [List.reverse_eq_nil_iff, List.map_eq_nil_iff] at hd
    exact Nat.digits_ne_nil_iff_ne_zero.2 hn hd

theorem millisOfIso_isoOfMillis (n : Nat) : millisOfIso (isoOfMillis n) = some n := by
  by_cases hn : n = 0
  · subst hn
    decide
  · unfold isoOfMillis
    rw [if_neg hn]
    have hdig : ∀ d ∈ Nat.digits 10 n, d < 10 := by
      intro d hd
      exact Nat.digits_lt_base (by norm_num) hd
    unfold millisOfIso
    rw [if_pos]
    · have hmaps :
          ((((Nat.digits 10 n).map Nat.digitChar).reverse.map
            (fun c => c.toNat - 48)).reverse) = Nat.digits 10 n := by
        rw [← List.map_reverse, List.reverse_reverse, List.map_map]
        have : ∀ d ∈ Nat.digits 10 n,
            ((fun c : Char => c.toNat - 48) ∘ Nat.digitChar) d = d := by
          intro d hd
          exact digitChar_toNat (hdig d hd)
        calc (Nat.digits 10 n).map ((fun c : Char => c.toNat - 48) ∘ Nat.digitChar)
            = (Nat.digits 10 n).map (fun d => d) := List.map_congr_left this
        _ = Nat.digits 10 n := by simp
      have hdata :
          (String.mk (((Nat.digits 10 n).map Nat.digitChar).reverse)).data =
            ((Nat.digits 10 n).map Nat.digitChar).reverse := rfl
      rw [hdata, hmaps, Nat.ofDigits_digits]
    · constructor
      · intro h
        have hd : ((Nat.digits 10 n).map Nat.digitChar).reverse = [] := h
        simp only [List.reverse_eq_nil_iff, List.map_eq_nil_iff] at hd
        exact Nat.digits_ne_nil_iff_ne_zero.2 hn hd
      · intro c hc
        simp only [List.mem_reverse, List.mem_map] at hc
        obtain ⟨d, hd, rfl⟩ := hc
        exact digitChar_isDigit (hdig d hd)

theorem decodeTodo_todoToJson (t : Todo) : decodeTodo (todoToJson t) = some t := by
  obtain ⟨i, title, note, c, dc⟩ := t
  cases dc with
  | none =>
    simp [todoToJson, decodeTodo, getField]
  | some d =>
    simp [todoToJson, decodeTodo, getField, isoOfMillis_ne_empty d,
      millisOfIso_isoOfMillis d]

theorem decodeTodoList_map (l : List Todo) :
    decodeTodos.decodeTodoList (l.map todoToJson) = some l := by
  induction l with
  | nil => rfl
  | cons t ts ih =>
    simp [decodeTodos.decodeTodoList, decodeTodo_todoToJson, ih]

/-- Claim C7: serializing any collection and deserializing the result
restores the collection, equal in every field. -/
theorem load_save_roundtrip (todos : List Todo) :
    loadTodosFromStorage (StorageContent.value (saveTodosToStorage todos)) = todos := by
  simp [loadTodosFromStorage, saveTodosToStorage, decodeTodos, decodeTodoList_map]

/-- Claim C8: loading never fails: an absent value and malformed text give
the empty collection, a parsed value whose decoding succeeds gives exactly
the decoded collection, and a parsed value whose decoding fails (where the
untyped JS revival would throw inside the `try` block) gives the empty
collection. -/
theorem loadTodos_never_fails :
    loadTodosFromStorage StorageContent.absent = [] ∧
    loadTodosFromStorage StorageContent.corrupt = [] ∧
    (∀ (j : Json) (todos : List Todo), decodeTodos j = some todos →
      loadTodosFromStorage (StorageContent.value j) = todos) ∧
    (∀ j : Json, decodeTodos j = none →
      loadTodosFromStorage (StorageContent.value j) = []) := by
  refine ⟨rfl, rfl, ?_, ?_⟩
  · intro j todos h
    simp [loadTodosFromStorage, h]
  · intro j h
    simp [loadTodosFromStorage, h]

/-- Witness for C8: a parsed value that is not an array decodes to a failure
and loads as the empty collection. -/
theorem loadTodos_never_fails_witness :
    decodeTodos (Json.num 3) = none ∧
    loadTodosFromStorage (StorageContent.value (Json.num 3)) = [] :=
  ⟨rfl, loadTodos_never_fails.2.2.2 (Json.num 3) rfl⟩
